import Mathlib

/-!
Shallow embedding of `src/rich_codex/rich_img.py` (module `rich_codex.rich_img`)
and verification of the spec claims about it.

Python strings are modelled as lists of characters (`PyStr`); the external
collaborators (rich console, ANSI decoder, json parser, CairoSVG) are modelled
as oracles/parameters, and the file system touched by `save_images` is an
explicit association list from path to file content.
-/

set_option maxRecDepth 8192

namespace RichCodex

/-- Python strings modelled as lists of characters. -/
abbrev PyStr := List Char

/-- Characters removed by Python `str.strip()` (ASCII whitespace). -/
def pyIsSpace (c : Char) : Bool :=
  c == ' ' || c == '\t' || c == '\n' || c == '\r' || c == Char.ofNat 11 || c == Char.ofNat 12

/-- Python `s.lstrip()`. -/
def lstrip (s : PyStr) : PyStr := s.dropWhile pyIsSpace

/-- Python `s.rstrip()`. -/
def rstrip (s : PyStr) : PyStr := (s.reverse.dropWhile pyIsSpace).reverse

/-- Python `s.strip()`. -/
def strip (s : PyStr) : PyStr := rstrip (lstrip s)

/-- Python `s.startswith(pre)`. -/
def startswith (s pre : PyStr) : Bool := pre.isPrefixOf s

/-- Python `s.lower()` (per-character ASCII lowercasing). -/
def lowerStr (s : PyStr) : PyStr := s.map Char.toLower

/-- Python `s.endswith(suf)`. -/
def endswith (s suf : PyStr) : Bool := suf.isSuffixOf s

/-- Python `cmd.split("&;")` from rich_img.py line 89: the string is split on
occurrences of the literal two-character separator `&;` (NOT on each of the
characters `&`, `;`, `|` individually). -/
def splitAmpSemi : PyStr → List PyStr
  | [] => [[]]
  | [c] => [[c]]
  | c₁ :: c₂ :: rest =>
    if c₁ == '&' && c₂ == ';' then
      [] :: splitAmpSemi rest
    else
      match splitAmpSemi (c₂ :: rest) with
      | [] => [[c₁]]
      | s :: ss => (c₁ :: s) :: ss

/-- Split on the pipe character; used only to speak about the first pipeline
segment of a command, as the claims do. -/
def splitPipe : PyStr → List PyStr
  | [] => [[]]
  | c :: rest =>
    if c == '|' then [] :: splitPipe rest
    else
      match splitPipe rest with
      | [] => [[c]]
      | s :: ss => (c :: s) :: ss

/-- Split on each sequencing or pipe separator character.  This follows the
words of the specification ("splits the command on sequencing/pipe
separators"); it is a comparison definition, not the code, which splits on
the literal string `&;`. -/
def splitSeparators : PyStr → List PyStr
  | [] => [[]]
  | c :: rest =>
    if c == '&' || c == ';' || c == '|' then [] :: splitSeparators rest
    else
      match splitSeparators rest with
      | [] => [[c]]
      | s :: ss => (c :: s) :: ss

/-- `IGNORE_COMMANDS` from rich_img.py line 27. -/
def IGNORE_COMMANDS : List PyStr := ["rm".toList, "cp".toList, "mv".toList, "sudo".toList]

/-- The denylist test of `RichImg.pipe_command` (rich_img.py lines 88-92):
for each ignored name, test whether any part of `cmd.split("&;")`, after
stripping, starts with that name.  `cmd` is the already-stripped command. -/
def cmdRejected (cmd : PyStr) : Bool :=
  IGNORE_COMMANDS.any fun ignore =>
    (splitAmpSemi cmd).any fun part => startswith (strip part) ignore

/-- The guard condition as the claim words it: split the command on
sequencing/pipe separator characters and reject when some segment, after
trimming, starts with a denylisted name.  Comparison definition following the
words of the specification, used to test the claim against `cmdRejected`. -/
def claimGuardRejects (cmd : PyStr) : Bool :=
  IGNORE_COMMANDS.any fun ignore =>
    (splitSeparators (strip cmd)).any fun part => startswith (strip part) ignore

/-- The first pipeline segment of the (stripped) command, trimmed, starts with
a denylisted name.  Vocabulary of the claims. -/
def firstSegDenied (cmd : PyStr) : Bool :=
  IGNORE_COMMANDS.any fun ignore =>
    startswith (strip ((splitPipe (strip cmd)).headD [])) ignore

/-- Message of the exception raised at rich_img.py line 119: the module is
imported via `import datetime`, so `datetime.now()` is an attribute access on
the module object, which has no attribute `now` (the class would be
`datetime.datetime`).  The statement raises before the temp file is removed. -/
def attrErrMsg : PyStr := "AttributeError: module datetime has no attribute now".toList

/-- Observable outcome of one call of `RichImg.pipe_command`. -/
structure PipeResult where
  aborted : Bool
  warned : Bool
  spawned : Bool
  title : PyStr
  tmpCreated : Bool
  tmpDeleted : Bool
  logWritten : Bool
  printed : List PyStr
  raised : Option PyStr
deriving DecidableEq

/-- Shallow embedding of `RichImg.pipe_command` (rich_img.py lines 80-121).

`cmd?` is `self.cmd`, `title0` is `self.title`, `aborted0` the incoming
`self.aborted`.  `decodeRes` is the oracle for the external read-and-decode
step (lines 110-113): `Except.ok lines` when `open`/`read`/`AnsiDecoder`
succeed and yield the given decoded lines, `Except.error e` when reading or
decoding raises.  The embedding follows the source line by line: strip the
command, run the denylist check, otherwise default the title, create a temp
file (`mkstemp`), spawn the subprocess, read and decode, print each decoded
line to the capture console, and then execute line 119 - which always raises
`AttributeError` (see `attrErrMsg`), so the copy to the timestamped log file
and the `unlink` of the temp file at lines 120-121 are never reached. -/
def pipe_command (cmd? : Option PyStr) (title0 : PyStr) (aborted0 : Bool)
    (decodeRes : Except PyStr (List PyStr)) : PipeResult :=
  match cmd? with
  | none =>
      { aborted := aborted0, warned := false, spawned := false, title := title0,
        tmpCreated := false, tmpDeleted := false, logWritten := false,
        printed := [], raised := none }
  | some cmd0 =>
      let cmd := strip cmd0
      if cmdRejected cmd then
        { aborted := true, warned := true, spawned := false, title := title0,
          tmpCreated := false, tmpDeleted := false, logWritten := false,
          printed := [], raised := none }
      else
        let t := if title0 == [] then cmd else title0
        match decodeRes with
        | Except.error e =>
            { aborted := aborted0, warned := false, spawned := true, title := t,
              tmpCreated := true, tmpDeleted := false, logWritten := false,
              printed := [], raised := some e }
        | Except.ok lines =>
            { aborted := aborted0, warned := false, spawned := true, title := t,
              tmpCreated := true, tmpDeleted := false, logWritten := false,
              printed := lines, raised := some attrErrMsg }

/-- The JSON language tag. -/
def jsonTag : PyStr := "json".toList

/-- What `RichImg.format_snippetg` prints into the capture console. -/
inductive SnippetRender where
  | nothingToDo
  | jsonPretty (txt : PyStr)
  | highlighted (txt : PyStr) (lexerTag : Option PyStr)
deriving DecidableEq

/-- Shallow embedding of `RichImg.format_snippetg` (rich_img.py lines 123-144).

`jsonOk` is the oracle for the external JSON parser used by
`console.print_json`: it tells whether parsing the snippet succeeds.  Per the
source: when the syntax tag equals `json` or is unset, try
`print_json(json=snippet)`; a parse failure raises and is caught by the
`except Exception` handler.  Any other tag executes the bare `raise` (a
`RuntimeError`, also caught).  The handler renders
`Syntax(self.snippet, self.snippet_syntax)` - the literal tag, which is `None`
when unset. -/
def format_snippetg (jsonOk : PyStr → Bool) (snippet? syntaxTag : Option PyStr) :
    SnippetRender :=
  match snippet? with
  | none => SnippetRender.nothingToDo
  | some snip =>
    if syntaxTag == some jsonTag || syntaxTag == none then
      if jsonOk snip then SnippetRender.jsonPretty snip
      else SnippetRender.highlighted snip syntaxTag
    else
      SnippetRender.highlighted snip syntaxTag

/-- What one call of `RichImg.get_output` does. -/
inductive OutputAction where
  | piped
  | snippetFormatted
  | attrErrorNoMethod
  | loggedNoOutput
deriving DecidableEq

/-- Shallow embedding of `RichImg.get_output` (rich_img.py lines 146-153).

The source reads: `if self.cmd is not None: self.pipe_command()` then
`elif self.snippet is None: self.format_snippet()` else a debug log.  So with
a command set the capture path runs (`piped`); with no command and no snippet
the method calls `self.format_snippet()`, a method that does not exist on the
class (the formatter is named `format_snippetg`), raising `AttributeError`
(`attrErrorNoMethod`); and with no command but a snippet set it only logs
"Tried to get output with no command or snippet" (`loggedNoOutput`).  The
constructor `snippetFormatted` is never produced. -/
def get_output (cmd? snippet? : Option PyStr) : OutputAction :=
  if cmd?.isSome then OutputAction.piped
  else if snippet?.isNone then OutputAction.attrErrorNoMethod
  else OutputAction.loggedNoOutput

/-- Content of a file written by `save_images`.  The capture console is fixed
during the export loop, so a job has one SVG serialization; rasterizing it
gives the PNG / PDF renditions.  A `copyfile` transfers the content value
unchanged (byte-for-byte copy). -/
inductive Content where
  | svgContent
  | pngContent
  | pdfContent
deriving DecidableEq

/-- The file system as seen by `save_images`: an association list from path to
content. -/
abbrev FS := List (PyStr × Content)

/-- Look a path up in the file system. -/
def getFile (fs : FS) (p : PyStr) : Option Content :=
  (fs.find? fun e => e.1 == p).map fun e => e.2

/-- Write (or overwrite) a path. -/
def setFile (fs : FS) (p : PyStr) (c : Content) : FS :=
  (p, c) :: fs.filter fun e => !(e.1 == p)

/-- Remove a path (`os.unlink`). -/
def removeFile (fs : FS) (p : PyStr) : FS :=
  fs.filter fun e => !(e.1 == p)

/-- Name of the k-th temporary SVG file created by `mkstemp(suffix=".svg")`
during one `save_images` call. -/
def tempName (k : Nat) : PyStr := "tmpsvg_".toList ++ Nat.toDigits 10 k ++ ".svg".toList

/-- Warning logged by `save_images` when `img_paths` is empty (line 160). -/
def noPathsMsg : PyStr := "Tried to save images with no paths".toList

/-- Error logged when CairoSVG is missing or broken (lines 199-210). -/
def cairoErrMsg : PyStr := "CairoSVG not installed, cannot convert SVG to PNG or PDF".toList

/-- Exception raised by `copyfile`/`open` on a missing source file. -/
def fileNotFoundMsg : PyStr := "FileNotFoundError".toList

/-- Side effects performed by `save_images`, in order. -/
inductive SaveEvent where
  | mkdirs (path : PyStr)
  | copy (src dst : PyStr)
  | saveSvg (path : PyStr)
  | renderPng (src dst : PyStr)
  | renderPdf (src dst : PyStr)
  | unlinkFile (path : PyStr)
  | logError (msg : PyStr)
  | logWarning (msg : PyStr)
deriving DecidableEq

/-- `filename.lower().endswith(".png")`. -/
def isPngName (f : PyStr) : Bool := endswith (lowerStr f) (".png".toList)

/-- `filename.lower().endswith(".pdf")`. -/
def isPdfName (f : PyStr) : Bool := endswith (lowerStr f) (".pdf".toList)

/-- State threaded through the `for filename in self.img_paths` loop of
`save_images`: the file system, the three per-tier caches `svg_img`,
`png_img`, `pdf_img`, a counter for `mkstemp` names, and the event log. -/
structure SaveState where
  fs : FS
  svg_img : Option PyStr
  png_img : Option PyStr
  pdf_img : Option PyStr
  tmpCount : Nat
  events : List SaveEvent
deriving DecidableEq

/-- `shutil.copyfile(src, dst)`: raises `FileNotFoundError` when the source
does not exist, otherwise writes an identical copy. -/
def copyStep (st : SaveState) (src dst : PyStr) : SaveState × Option PyStr :=
  match getFile st.fs src with
  | none => (st, some fileNotFoundMsg)
  | some c =>
      ({ st with fs := setFile st.fs dst c,
                 events := st.events ++ [SaveEvent.copy src dst] }, none)

/-- One-to-one embedding of the loop body of `RichImg.save_images`
(rich_img.py lines 167-230), iterated over the remaining paths.  `cairoOk`
tells whether `from cairosvg import svg2pdf, svg2png` succeeds (lines
196-210); when it fails the path is skipped with a logged error.  Per the
source: make parent directories; copy from `png_img` for a `.png` path when a
PNG exists; likewise `pdf_img` for `.pdf`; then - with no suffix condition at
line 180 - copy from `svg_img` for ANY path once an SVG exists; otherwise
choose `svg_filename` (a fresh temp `.svg` for raster paths, the path itself
for others), save the SVG if none was saved yet, and convert to PNG and to
PDF as requested, unlinking `svg_filename` after each conversion.  The second
component of the result is the uncaught exception, if one stops the loop. -/
def saveLoop (cairoOk : Bool) : List PyStr → SaveState → SaveState × Option PyStr
  | [], st => (st, none)
  | filename :: rest, st0 =>
    let st1 : SaveState := { st0 with events := st0.events ++ [SaveEvent.mkdirs filename] }
    if isPngName filename && st1.png_img.isSome then
      match copyStep st1 (st1.png_img.getD []) filename with
      | (st2, some e) => (st2, some e)
      | (st2, none) => saveLoop cairoOk rest st2
    else if isPdfName filename && st1.pdf_img.isSome then
      match copyStep st1 (st1.pdf_img.getD []) filename with
      | (st2, some e) => (st2, some e)
      | (st2, none) => saveLoop cairoOk rest st2
    else if st1.svg_img.isSome then
      match copyStep st1 (st1.svg_img.getD []) filename with
      | (st2, some e) => (st2, some e)
      | (st2, none) => saveLoop cairoOk rest st2
    else
      let isRaster := isPngName filename || isPdfName filename
      let svg_filename := if isRaster then tempName st1.tmpCount else filename
      let st2 : SaveState := if isRaster then { st1 with tmpCount := st1.tmpCount + 1 } else st1
      let st3 : SaveState :=
        if st2.svg_img.isNone then
          { st2 with fs := setFile st2.fs svg_filename Content.svgContent,
                     events := st2.events ++ [SaveEvent.saveSvg svg_filename],
                     svg_img := some svg_filename }
        else st2
      if isRaster && !cairoOk then
        saveLoop cairoOk rest { st3 with events := st3.events ++ [SaveEvent.logError cairoErrMsg] }
      else
        match
          (if isPngName filename then
            match getFile st3.fs svg_filename with
            | none => (st3, some fileNotFoundMsg)
            | some _ =>
                ({ st3 with
                    fs := removeFile (setFile st3.fs filename Content.pngContent) svg_filename,
                    events := st3.events ++ [SaveEvent.renderPng svg_filename filename,
                                             SaveEvent.unlinkFile svg_filename],
                    png_img := some filename }, none)
          else (st3, none) : SaveState × Option PyStr) with
        | (st4, some e) => (st4, some e)
        | (st4, none) =>
          match
            (if isPdfName filename then
              match getFile st4.fs svg_filename with
              | none => (st4, some fileNotFoundMsg)
              | some _ =>
                  ({ st4 with
                      fs := removeFile (setFile st4.fs filename Content.pdfContent) svg_filename,
                      events := st4.events ++ [SaveEvent.renderPdf svg_filename filename,
                                               SaveEvent.unlinkFile svg_filename],
                      pdf_img := some filename }, none)
            else (st4, none) : SaveState × Option PyStr) with
          | (st5, some e) => (st5, some e)
          | (st5, none) => saveLoop cairoOk rest st5

/-- Observable outcome of one call of `RichImg.save_images`. -/
structure SaveResult where
  fs : FS
  events : List SaveEvent
  raised : Option PyStr
  retVal : Option Nat
deriving DecidableEq

/-- Shallow embedding of `RichImg.save_images` (rich_img.py lines 155-232).
`aborted` is `self.aborted`, `img_paths` is `self.img_paths`, `fs0` the
initial file system.  The method returns immediately (a bare `return`, i.e.
`None`, recorded as `retVal := none`) when aborted or when `img_paths` is
empty - the latter after logging a warning; otherwise it runs the loop and
executes `return len(self.img_paths)` (`retVal := some img_paths.length`)
unless an exception escaped the loop. -/
def save_images (aborted : Bool) (img_paths : List PyStr) (cairoOk : Bool) (fs0 : FS) :
    SaveResult :=
  if aborted then
    { fs := fs0, events := [], raised := none, retVal := none }
  else if img_paths.length = 0 then
    { fs := fs0, events := [SaveEvent.logWarning noPathsMsg], raised := none, retVal := none }
  else
    match saveLoop cairoOk img_paths
        { fs := fs0, svg_img := none, png_img := none, pdf_img := none,
          tmpCount := 0, events := [] } with
    | (st, none) => { fs := st.fs, events := st.events, raised := none,
                      retVal := some img_paths.length }
    | (st, some e) => { fs := st.fs, events := st.events, raised := some e, retVal := none }

/-- The attributes named by `RICH_IMG_ATTRS` (rich_img.py lines 16-24), with
their types as set up in `RichImg.__init__`. -/
structure RichImg where
  terminal_width : Option Nat
  terminal_theme : Option PyStr
  title : PyStr
  cmd : Option PyStr
  snippet : Option PyStr
  snippet_syntax : Option PyStr
  img_paths : List PyStr
deriving DecidableEq

/-- Value of one attribute, as it appears in the list
`[getattr(self, attr) for attr in RICH_IMG_ATTRS]`. -/
inductive AttrVal where
  | natV (n : Option Nat)
  | strV (s : Option PyStr)
  | listV (l : List PyStr)
deriving DecidableEq

/-- `RichImg.__eq__` (rich_img.py lines 57-62): attribute-wise equality over
`RICH_IMG_ATTRS`. -/
def richImgEq (a b : RichImg) : Bool :=
  a.terminal_width == b.terminal_width && a.terminal_theme == b.terminal_theme &&
  a.title == b.title && a.cmd == b.cmd && a.snippet == b.snippet &&
  a.snippet_syntax == b.snippet_syntax && a.img_paths == b.img_paths

/-- The list `[getattr(self, attr) for attr in RICH_IMG_ATTRS]` whose `str` is
hashed by `RichImg.__hash__` (lines 64-67).  `str` is injective on these typed
values, so the hash is a function of this key. -/
def attrsKey (r : RichImg) : List AttrVal :=
  [AttrVal.natV r.terminal_width, AttrVal.strV r.terminal_theme,
   AttrVal.strV (some r.title), AttrVal.strV r.cmd, AttrVal.strV r.snippet,
   AttrVal.strV r.snippet_syntax, AttrVal.listV r.img_paths]

/-- The attribute list of `RichImg._hash_no_fn` (lines 69-72): every attribute
of `RICH_IMG_ATTRS` except `img_paths`. -/
def attrsKeyNoFn (r : RichImg) : List AttrVal :=
  [AttrVal.natV r.terminal_width, AttrVal.strV r.terminal_theme,
   AttrVal.strV (some r.title), AttrVal.strV r.cmd, AttrVal.strV r.snippet,
   AttrVal.strV r.snippet_syntax]

/-- `RichImg.__hash__` = `hash(str(attrs))`: the Python string hash `h` (a
fixed pure function within one interpreter run) applied to the key. -/
def richImgHash (h : List AttrVal → Int) (r : RichImg) : Int := h (attrsKey r)

/-- `RichImg._hash_no_fn` = `hash(str(attrs))` without `img_paths`. -/
def hashNoFn (h : List AttrVal → Int) (r : RichImg) : Int := h (attrsKeyNoFn r)

/-- Concrete inputs used in the theorems below. -/
def chainCmd : PyStr := "echo hi; rm -rf /".toList

/-- A plain echo command. -/
def echoCmd : PyStr := "echo hello".toList

/-- A directory listing command. -/
def lsCmd : PyStr := "ls -la".toList

/-- A command reading a file. -/
def catCmd : PyStr := "cat logfile".toList

/-- A denylisted command. -/
def rmCmd : PyStr := "rm -rf temp".toList

/-- Message of a decode failure while reading the captured output. -/
def decodeErrMsg : PyStr := "UnicodeDecodeError".toList

/-- A captured output line. -/
def helloLine : PyStr := "hello".toList

/-- A snippet that is not valid JSON. -/
def sampleSnippet : PyStr := "sample text".toList

/-- Output paths used in the exporter theorems. -/
def xSvg : PyStr := "x.svg".toList

/-- Output path x.png. -/
def xPng : PyStr := "x.png".toList

/-- Output path y.png. -/
def yPng : PyStr := "y.png".toList

/-- Output path a.png. -/
def aPng : PyStr := "a.png".toList

/-- Output path b.png. -/
def bPng : PyStr := "b.png".toList

/-- Output path a.svg. -/
def aSvg : PyStr := "a.svg".toList

/-- The generic text lexer tag named by the specification. -/
def textTag : PyStr := "text".toList

/-- Event classifier: error log entries. -/
def isLogErrorEv : SaveEvent → Bool
  | SaveEvent.logError _ => true
  | _ => false

/-- Event classifier: PNG rasterizations. -/
def isRenderPngEv : SaveEvent → Bool
  | SaveEvent.renderPng _ _ => true
  | _ => false

/-- Event classifier: file deletions. -/
def isUnlinkEv : SaveEvent → Bool
  | SaveEvent.unlinkFile _ => true
  | _ => false

/-- Sample render job for the identity theorems. -/
def sampleJob : RichImg :=
  { terminal_width := some 80, terminal_theme := none, title := "t".toList,
    cmd := some echoCmd, snippet := none, snippet_syntax := none,
    img_paths := [aSvg] }

/-- Same content as `sampleJob`, different output paths. -/
def sampleJob2 : RichImg := { sampleJob with img_paths := [bPng] }

/-! Helper lemmas about the string primitives, used for the guard theorems. -/

theorem dropWhile_app (p : Char → Bool) :
    ∀ a b : List Char, List.dropWhile p (a ++ b) =
      if List.dropWhile p a = [] then List.dropWhile p b else List.dropWhile p a ++ b
  | [], b => by simp
  | c :: a, b => by
    by_cases hc : p c = true
    · simpa [List.dropWhile_cons, hc] using dropWhile_app p a b
    · simp [List.dropWhile_cons, hc]

theorem dropWhile_all_false (p : Char → Bool) :
    ∀ l : List Char, (∀ c ∈ l, p c = false) → List.dropWhile p l = l
  | [], _ => rfl
  | c :: l, h => by
    have hc : p c = false := h c (List.mem_cons_self c l)
    simp [List.dropWhile_cons, hc]

theorem dropWhile_head_false (p : Char → Bool) :
    ∀ (l : List Char) c t, List.dropWhile p l = c :: t → p c = false
  | [], c, t, h => by simp at h
  | a :: l, c, t, h => by
    by_cases ha : p a = true
    · simp only [List.dropWhile_cons, ha, if_true] at h
      exact dropWhile_head_false p l c t h
    · simp only [List.dropWhile_cons, ha, if_false] at h
      injection h with h1 _
      subst h1
      simpa using ha

theorem dropWhile_length_le (p : Char → Bool) :
    ∀ l : List Char, (List.dropWhile p l).length ≤ l.length
  | [] => Nat.le_refl _
  | c :: l => by
    by_cases hc : p c = true
    · simp only [List.dropWhile_cons, hc, if_true]
      exact Nat.le_trans (dropWhile_length_le p l) (Nat.le_succ _)
    · simp [List.dropWhile_cons, hc]

theorem lstrip_lstrip (s : PyStr) : lstrip (lstrip s) = lstrip s := by
  unfold lstrip
  cases h : List.dropWhile pyIsSpace s with
  | nil => simp
  | cons c t =>
    have hc := dropWhile_head_false pyIsSpace s c t h
    simp [List.dropWhile_cons, hc]

theorem pref_no_leading (u v : PyStr) (hu : lstrip u = u) (hv : v <+: u) :
    lstrip v = v := by
  cases v with
  | nil => rfl
  | cons c t =>
    obtain ⟨r, hr⟩ := hv
    have hc : pyIsSpace c = false := by
      by_contra hcc
      have hc' : pyIsSpace c = true := by simpa using hcc
      have hu' : List.dropWhile pyIsSpace (t ++ r) = c :: (t ++ r) := by
        have h0 := hu
        rw [← hr] at h0
        simpa [lstrip, List.dropWhile_cons, hc'] using h0
      have hle := dropWhile_length_le pyIsSpace (t ++ r)
      rw [hu'] at hle
      simp at hle
    simp [lstrip, List.dropWhile_cons, hc]

theorem rstrip_pref (s : PyStr) : rstrip s <+: s := by
  have h : List.takeWhile pyIsSpace s.reverse ++ List.dropWhile pyIsSpace s.reverse
      = s.reverse := List.takeWhile_append_dropWhile pyIsSpace s.reverse
  refine ⟨(List.takeWhile pyIsSpace s.reverse).reverse, ?_⟩
  unfold rstrip
  rw [← List.reverse_append, h, List.reverse_reverse]

theorem strip_no_leading (s : PyStr) : lstrip (strip s) = strip s := by
  unfold strip
  exact pref_no_leading (lstrip s) (rstrip (lstrip s)) (lstrip_lstrip s) (rstrip_pref (lstrip s))

theorem no_space_pref_rstrip (d t : PyStr) (hd : ∀ c ∈ d, pyIsSpace c = false) :
    d <+: rstrip (d ++ t) := by
  unfold rstrip
  rw [List.reverse_append, dropWhile_app]
  by_cases h : List.dropWhile pyIsSpace t.reverse = []
  · rw [if_pos h, dropWhile_all_false pyIsSpace d.reverse
      (fun c hc => hd c (by simpa using hc)), List.reverse_reverse]
  · rw [if_neg h, List.reverse_append, List.reverse_reverse]
    exact List.prefix_append d _

theorem splitPipe_ne : ∀ s : PyStr, splitPipe s ≠ []
  | [] => by simp [splitPipe]
  | c :: rest => by
    by_cases hc : (c == '|') = true
    · simp [splitPipe, hc]
    · cases h : splitPipe rest with
      | nil => simp [splitPipe, hc, h]
      | cons a l => simp [splitPipe, hc, h]

theorem splitAmpSemi_ne : ∀ s : PyStr, splitAmpSemi s ≠ []
  | [] => by simp [splitAmpSemi]
  | [_] => by simp [splitAmpSemi]
  | c₁ :: c₂ :: rest => by
    by_cases hg : (c₁ == '&' && c₂ == ';') = true
    · simp [splitAmpSemi, hg]
    · cases h : splitAmpSemi (c₂ :: rest) with
      | nil => simp [splitAmpSemi, hg, h]
      | cons a l => simp [splitAmpSemi, hg, h]

theorem splitPipe_cons_ne (c : Char) (rest : List Char) (hc : (c == '|') = false)
    (a : PyStr) (l : List PyStr) (h : splitPipe rest = a :: l) :
    splitPipe (c :: rest) = (c :: a) :: l := by
  simp [splitPipe, hc, h]

theorem splitAmpSemi_cons2 (c₁ c₂ : Char) (rest : List Char)
    (hg : (c₁ == '&' && c₂ == ';') = false) (a : PyStr) (l : List PyStr)
    (h : splitAmpSemi (c₂ :: rest) = a :: l) :
    splitAmpSemi (c₁ :: c₂ :: rest) = (c₁ :: a) :: l := by
  simp [splitAmpSemi, hg, h]

theorem splitPipe_headD_pref : ∀ s : PyStr, (splitPipe s).headD [] <+: s
  | [] => by simp [splitPipe]
  | c :: rest => by
    by_cases hc : (c == '|') = true
    · simp [splitPipe, hc]
    · cases h : splitPipe rest with
      | nil => exact absurd h (splitPipe_ne rest)
      | cons a l =>
        have ih := splitPipe_headD_pref rest
        rw [h] at ih
        simp only [List.headD_cons] at ih
        rw [splitPipe_cons_ne c rest (by simpa using hc) a l h]
        simp only [List.headD_cons]
        obtain ⟨r, hr⟩ := ih
        exact ⟨r, by rw [List.cons_append, hr]⟩

theorem splitAmpSemi_headD_pref : ∀ s : PyStr, (splitAmpSemi s).headD [] <+: s
  | [] => by simp [splitAmpSemi]
  | [c] => by simp [splitAmpSemi]
  | c₁ :: c₂ :: rest => by
    by_cases hg : (c₁ == '&' && c₂ == ';') = true
    · simp [splitAmpSemi, hg]
    · cases h : splitAmpSemi (c₂ :: rest) with
      | nil => exact absurd h (splitAmpSemi_ne _)
      | cons a l =>
        have ih := splitAmpSemi_headD_pref (c₂ :: rest)
        rw [h] at ih
        simp only [List.headD_cons] at ih
        rw [splitAmpSemi_cons2 c₁ c₂ rest (by simpa using hg) a l h]
        simp only [List.headD_cons]
        obtain ⟨r, hr⟩ := ih
        exact ⟨r, by rw [List.cons_append, hr]⟩

theorem splitAmpSemi_headD_keeps : ∀ (s d : PyStr), d ≠ [] → ('&' : Char) ∉ d →
    d <+: s → d <+: (splitAmpSemi s).headD []
  | [], d, hd, _, hp => by
    obtain ⟨r, hr⟩ := hp
    cases d with
    | nil => exact absurd rfl hd
    | cons x xs => simp at hr
  | [c], d, _, _, hp => by simpa [splitAmpSemi] using hp
  | c₁ :: c₂ :: rest, d, hd, ha, hp => by
    by_cases hg : (c₁ == '&' && c₂ == ';') = true
    · exfalso
      have hc₁ : c₁ = '&' := by
        have h0 := hg
        simp only [Bool.and_eq_true, beq_iff_eq] at h0
        exact h0.1
      cases d with
      | nil => exact hd rfl
      | cons x xs =>
        obtain ⟨r, hr⟩ := hp
        rw [List.cons_append] at hr
        injection hr with h1 _
        exact ha (by rw [h1, hc₁]; exact List.mem_cons_self _ _)
    · cases h : splitAmpSemi (c₂ :: rest) with
      | nil => exact absurd h (splitAmpSemi_ne _)
      | cons a l =>
        rw [splitAmpSemi_cons2 c₁ c₂ rest (by simpa using hg) a l h]
        simp only [List.headD_cons]
        cases d with
        | nil => exact List.nil_prefix
        | cons x xs =>
          obtain ⟨r, hr⟩ := hp
          rw [List.cons_append] at hr
          injection hr with h1 h2
          subst h1
          by_cases hxs : xs = []
          · subst hxs
            exact ⟨a, by simp⟩
          · have hrec := splitAmpSemi_headD_keeps (c₂ :: rest) xs hxs
              (fun hm => ha (List.mem_cons_of_mem _ hm)) ⟨r, h2⟩
            rw [h] at hrec
            simp only [List.headD_cons] at hrec
            obtain ⟨rr, hrr⟩ := hrec
            exact ⟨rr, by rw [List.cons_append, hrr]⟩

theorem headD_mem {l : List PyStr} (h : l ≠ []) : l.headD [] ∈ l := by
  cases l with
  | nil => exact absurd rfl h
  | cons a t => simp

/-- A command whose first pipeline segment, trimmed, starts with a denylisted
name is caught by the denylist test of the source: the stripped command then
itself starts with that name, hence so does the first `&;`-segment. -/
theorem firstSeg_imp_rejected (cmd : PyStr) (h : firstSegDenied cmd = true) :
    cmdRejected (strip cmd) = true := by
  unfold firstSegDenied at h
  rw [List.any_eq_true] at h
  obtain ⟨dn, hdmem, hstart⟩ := h
  have hddata : dn ≠ [] ∧ ('&' : Char) ∉ dn ∧ (∀ c ∈ dn, pyIsSpace c = false) := by
    have hm := hdmem
    simp only [IGNORE_COMMANDS, List.mem_cons, List.not_mem_nil, or_false] at hm
    rcases hm with rfl | rfl | rfl | rfl
    · exact ⟨by decide, by decide, by decide⟩
    · exact ⟨by decide, by decide, by decide⟩
    · exact ⟨by decide, by decide, by decide⟩
    · exact ⟨by decide, by decide, by decide⟩
  obtain ⟨hd1, hd2, hd3⟩ := hddata
  rw [startswith, List.isPrefixOf_iff_prefix] at hstart
  have hs : lstrip (strip cmd) = strip cmd := strip_no_leading cmd
  have hh0 : (splitPipe (strip cmd)).headD [] <+: strip cmd := splitPipe_headD_pref _
  have hh0l : lstrip ((splitPipe (strip cmd)).headD []) = (splitPipe (strip cmd)).headD [] :=
    pref_no_leading _ _ hs hh0
  have hstrip0 : strip ((splitPipe (strip cmd)).headD [])
      = rstrip ((splitPipe (strip cmd)).headD []) := by
    rw [strip, hh0l]
  rw [hstrip0] at hstart
  have h1 : dn <+: (splitPipe (strip cmd)).headD [] := hstart.trans (rstrip_pref _)
  have h2 : dn <+: strip cmd := h1.trans hh0
  have h3 : dn <+: (splitAmpSemi (strip cmd)).headD [] :=
    splitAmpSemi_headD_keeps (strip cmd) dn hd1 hd2 h2
  have hk : (splitAmpSemi (strip cmd)).headD [] <+: strip cmd := splitAmpSemi_headD_pref _
  have hkl : lstrip ((splitAmpSemi (strip cmd)).headD [])
      = (splitAmpSemi (strip cmd)).headD [] := pref_no_leading _ _ hs hk
  obtain ⟨t, ht⟩ := h3
  have h4 : dn <+: strip ((splitAmpSemi (strip cmd)).headD []) := by
    rw [strip, hkl, ← ht]
    exact no_space_pref_rstrip dn t hd3
  unfold cmdRejected
  rw [List.any_eq_true]
  refine ⟨dn, hdmem, ?_⟩
  rw [List.any_eq_true]
  refine ⟨(splitAmpSemi (strip cmd)).headD [], headD_mem (splitAmpSemi_ne _), ?_⟩
  rw [startswith, List.isPrefixOf_iff_prefix]
  exact h4

/-- `richImgEq` unfolded to attribute-wise propositional equality. -/
theorem richImgEq_iff (a b : RichImg) :
    richImgEq a b = true ↔
      (a.terminal_width = b.terminal_width ∧ a.terminal_theme = b.terminal_theme ∧
       a.title = b.title ∧ a.cmd = b.cmd ∧ a.snippet = b.snippet ∧
       a.snippet_syntax = b.snippet_syntax ∧ a.img_paths = b.img_paths) := by
  simp [richImgEq, and_assoc]

/-! Claim theorems. -/

/-- C1 (code bug): for outputPaths `[x.svg, x.png, y.png]` with the rasterizer
available, the source performs no PNG rasterization at all; both `.png` paths
receive byte copies of the SVG artifact (the copy branch at line 180 has no
`.svg` suffix condition), contradicting the claim that one PNG is generated
and then copied. -/
theorem save_images_svg_copied_to_raster :
    getFile (save_images false [xSvg, xPng, yPng] true []).fs xPng = some Content.svgContent ∧
    getFile (save_images false [xSvg, xPng, yPng] true []).fs yPng = some Content.svgContent ∧
    ((save_images false [xSvg, xPng, yPng] true []).events.filter isRenderPngEv).length = 0 ∧
    (save_images false [xSvg, xPng, yPng] true []).raised = none ∧
    (save_images false [xSvg, xPng, yPng] true []).retVal = some 3 := by decide

/-- C2 (counterexample): `echo hi; rm -rf /` has a segment (after splitting on
sequencing/pipe separators, as the claim words it) whose trimmed text starts
with the denylisted `rm`, so the claim demands rejection; the code, splitting
on the literal string `&;`, does not reject it: the job is not aborted, no
warning is logged, and a child process is spawned. -/
theorem guard_literal_split_counterexample :
    claimGuardRejects chainCmd = true ∧
    (pipe_command (some chainCmd) [] false (Except.ok [])).aborted = false ∧
    (pipe_command (some chainCmd) [] false (Except.ok [])).spawned = true ∧
    (pipe_command (some chainCmd) [] false (Except.ok [])).warned = false := by decide

/-- C2 (amended): the guard rejects exactly when, after splitting the command
on the literal two-character string `&;`, some segment's trimmed text starts
with a denylisted name; on rejection the aborted flag is set, a warning is
surfaced, and no child process is spawned; otherwise a process is spawned;
and in particular every command whose first pipeline segment's trimmed text
starts with a denylisted name is rejected with no process spawned. -/
theorem pipe_command_guard (cmd title0 : PyStr) (a0 : Bool)
    (d : Except PyStr (List PyStr)) :
    (cmdRejected (strip cmd) = true →
      (pipe_command (some cmd) title0 a0 d).aborted = true ∧
      (pipe_command (some cmd) title0 a0 d).warned = true ∧
      (pipe_command (some cmd) title0 a0 d).spawned = false) ∧
    (cmdRejected (strip cmd) = false →
      (pipe_command (some cmd) title0 a0 d).aborted = a0 ∧
      (pipe_command (some cmd) title0 a0 d).warned = false ∧
      (pipe_command (some cmd) title0 a0 d).spawned = true) ∧
    (firstSegDenied cmd = true →
      (pipe_command (some cmd) title0 a0 d).aborted = true ∧
      (pipe_command (some cmd) title0 a0 d).spawned = false) := by
  refine ⟨fun h => ?_, fun h => ?_, fun h => ?_⟩
  · simp [pipe_command, h]
  · cases d <;> simp [pipe_command, h]
  · have hr := firstSeg_imp_rejected cmd h
    simp [pipe_command, hr]

/-- C2 (witness): the amended guard theorem applied to the denylisted command
`rm -rf temp`. -/
theorem pipe_command_guard_witness :
    cmdRejected (strip rmCmd) = true ∧
    (pipe_command (some rmCmd) [] false (Except.ok [])).aborted = true ∧
    (pipe_command (some rmCmd) [] false (Except.ok [])).spawned = false :=
  ⟨by decide,
   ((pipe_command_guard rmCmd [] false (Except.ok [])).1 (by decide)).1,
   ((pipe_command_guard rmCmd [] false (Except.ok [])).1 (by decide)).2.2⟩

/-- C3 (code bug): in snippet mode (snippet set, command unset) `get_output`
never invokes the snippet formatter: the source tests `elif self.snippet is
None` (inverted) and would call the non-existent method `format_snippet` (the
formatter is defined as `format_snippetg`), so a snippet-mode job only logs
"Tried to get output with no command or snippet"; command mode does invoke
the command capture path. -/
theorem get_output_snippet_mode_bug :
    get_output none (some sampleSnippet) = OutputAction.loggedNoOutput ∧
    ¬ get_output none (some sampleSnippet) = OutputAction.snippetFormatted ∧
    get_output (some echoCmd) none = OutputAction.piped ∧
    get_output (some echoCmd) (some sampleSnippet) = OutputAction.piped ∧
    get_output none none = OutputAction.attrErrorNoMethod := by decide

/-- C4 (counterexample): with empty outputPaths, `save_images` executes a bare
`return`, i.e. it returns `None` and not `0` as the claim states; it logs a
warning and writes no files. -/
theorem save_images_empty_returns_none :
    ¬ (save_images false [] true []).retVal = some 0 ∧
    (save_images false [] true []).retVal = none ∧
    (save_images false [] true []).fs = [] ∧
    (save_images false [] true []).events = [SaveEvent.logWarning noPathsMsg] := by decide

/-- C4 (amended): `save_images` returns immediately with no value (`None`)
when the job is aborted, and likewise - after logging a warning and touching
no file - when outputPaths is empty; when the loop over a non-empty path list
completes without an uncaught exception it returns the number of paths
attempted. -/
theorem save_images_return_protocol (aborted : Bool) (paths : List PyStr)
    (cairoOk : Bool) (fs0 : FS) :
    (aborted = true →
      save_images aborted paths cairoOk fs0 =
        { fs := fs0, events := [], raised := none, retVal := none }) ∧
    (aborted = false → paths = [] →
      save_images aborted paths cairoOk fs0 =
        { fs := fs0, events := [SaveEvent.logWarning noPathsMsg], raised := none,
          retVal := none }) ∧
    (aborted = false → paths ≠ [] →
      (save_images aborted paths cairoOk fs0).raised = none →
      (save_images aborted paths cairoOk fs0).retVal = some paths.length) := by
  refine ⟨fun h => ?_, fun h h2 => ?_, fun h h2 h3 => ?_⟩
  · subst h; simp [save_images]
  · subst h; subst h2; simp [save_images]
  · subst h
    have hlen : ¬ paths.length = 0 := by
      simpa [List.length_eq_zero] using h2
    rcases hsl : saveLoop cairoOk paths
        { fs := fs0, svg_img := none, png_img := none, pdf_img := none,
          tmpCount := 0, events := [] } with ⟨st, err⟩
    cases err with
    | none => simp [save_images, hlen, hsl]
    | some e =>
        have hcontra : (save_images false paths cairoOk fs0).raised = some e := by
          simp [save_images, hlen, hsl]
        rw [h3] at hcontra
        cases hcontra

/-- C4 (witness): the amended return theorem applied to a one-path job. -/
theorem save_images_return_protocol_witness :
    (save_images false [aSvg] true []).retVal = some 1 :=
  (save_images_return_protocol false [aSvg] true []).2.2 rfl (by decide) (by decide)

/-- C5 (code bug): temporary files are leaked on several exit paths.  On a
successful capture the source raises `AttributeError` at line 119 (module
`datetime` has no attribute `now`) before `unlink`, so the capture temp file
is not deleted; a decode error likewise propagates before cleanup; and when
the rasterizer is unavailable, the intermediate temp SVG saved for a `.png`
path is left on disk with no `unlink` event. -/
theorem temp_files_leaked :
    (pipe_command (some echoCmd) [] false (Except.ok [helloLine])).tmpCreated = true ∧
    (pipe_command (some echoCmd) [] false (Except.ok [helloLine])).tmpDeleted = false ∧
    (pipe_command (some echoCmd) [] false (Except.ok [helloLine])).raised = some attrErrMsg ∧
    (pipe_command (some echoCmd) [] false (Except.error decodeErrMsg)).tmpDeleted = false ∧
    getFile (save_images false [aPng] false []).fs (tempName 0) = some Content.svgContent ∧
    ((save_images false [aPng] false []).events.filter isUnlinkEv).length = 0 := by decide

/-- C6 (counterexample): a decode error while reading the captured output is
not caught anywhere in `pipe_command`; it propagates to the caller as an
exception, refuting the claim that it is never propagated. -/
theorem decode_error_propagates :
    (pipe_command (some catCmd) [] false (Except.error decodeErrMsg)).raised
      = some decodeErrMsg := by decide

/-- C6 (amended): for every non-rejected command, a decode or IO error while
reading the captured output propagates to the caller as an exception (there
is no handler in `pipe_command`); the capture console stays empty and the
temp file is left in place. -/
theorem pipe_command_decode_error (cmd t0 : PyStr) (a0 : Bool) (e : PyStr)
    (hrej : cmdRejected (strip cmd) = false) :
    (pipe_command (some cmd) t0 a0 (Except.error e)).raised = some e ∧
    (pipe_command (some cmd) t0 a0 (Except.error e)).printed = [] ∧
    (pipe_command (some cmd) t0 a0 (Except.error e)).tmpDeleted = false := by
  simp [pipe_command, hrej]

/-- C6 (witness): the decode-error theorem applied to a concrete command. -/
theorem pipe_command_decode_error_witness :
    cmdRejected (strip catCmd) = false ∧
    (pipe_command (some catCmd) [] false (Except.error decodeErrMsg)).printed = [] :=
  ⟨by decide, (pipe_command_decode_error catCmd [] false decodeErrMsg (by decide)).2.1⟩

/-- C7 (code bug): on a successful capture the source crashes with
`AttributeError` at the timestamp computation (`datetime.now()` on the module
imported by `import datetime`), so neither is the debug log file written nor
the temporary output file deleted; the decoded lines were already printed to
the capture console when the crash happens. -/
theorem success_path_no_log_no_cleanup :
    (pipe_command (some lsCmd) [] false (Except.ok [helloLine])).raised = some attrErrMsg ∧
    (pipe_command (some lsCmd) [] false (Except.ok [helloLine])).logWritten = false ∧
    (pipe_command (some lsCmd) [] false (Except.ok [helloLine])).tmpDeleted = false ∧
    (pipe_command (some lsCmd) [] false (Except.ok [helloLine])).printed = [helloLine] := by
  decide

/-- C8 (counterexample): with the syntax tag absent and a snippet that fails
to parse as JSON, the fallback renders `Syntax(snippet, None)` - the literal
(absent) tag - and not `Syntax(snippet, "text")` as the claim states. -/
theorem fallback_tag_not_text :
    format_snippetg (fun _ => false) (some sampleSnippet) none
      = SnippetRender.highlighted sampleSnippet none ∧
    ¬ format_snippetg (fun _ => false) (some sampleSnippet) none
      = SnippetRender.highlighted sampleSnippet (some textTag) := by decide

/-- C8 (amended): when the syntax tag is unset or equals `json`, the snippet
is pretty-printed as JSON when it parses; a parse failure is not fatal and
falls back to generic syntax highlighting of the unmodified text using the
literal syntax tag - which is `None` (no tag), not `"text"`, when the tag is
absent. -/
theorem format_snippetg_fallback (p : PyStr → Bool) (snip : PyStr)
    (tag? : Option PyStr) (hjson : tag? = none ∨ tag? = some jsonTag) :
    (p snip = true →
      format_snippetg p (some snip) tag? = SnippetRender.jsonPretty snip) ∧
    (p snip = false →
      format_snippetg p (some snip) tag? = SnippetRender.highlighted snip tag?) := by
  rcases hjson with h | h <;> subst h <;>
    exact ⟨fun hp => by simp [format_snippetg, hp], fun hp => by simp [format_snippetg, hp]⟩

/-- C8 (witness): the fallback theorem applied to a non-JSON snippet with the
tag set to `json`. -/
theorem format_snippetg_fallback_witness :
    format_snippetg (fun _ => false) (some sampleSnippet) (some jsonTag)
      = SnippetRender.highlighted sampleSnippet (some jsonTag) :=
  (format_snippetg_fallback (fun _ => false) sampleSnippet (some jsonTag) (Or.inr rfl)).2 rfl

/-- C9 (code bug): with the rasterizer unavailable and outputPaths
`[a.png, b.png]`, only the first raster path is skipped with a logged error;
the second is not skipped - it silently receives a byte copy of the leftover
intermediate SVG (no second error is logged, no rasterization happens), while
the claim demands that every raster path be skipped with a logged error.  The
call still neither raises nor aborts the batch. -/
theorem raster_unavailable_later_paths_copied :
    ((save_images false [aPng, bPng] false []).events.filter isLogErrorEv).length = 1 ∧
    getFile (save_images false [aPng, bPng] false []).fs bPng = some Content.svgContent ∧
    getFile (save_images false [aPng, bPng] false []).fs aPng = none ∧
    ((save_images false [aPng, bPng] false []).events.filter isRenderPngEv).length = 0 ∧
    (save_images false [aPng, bPng] false []).raised = none ∧
    (save_images false [aPng, bPng] false []).retVal = some 2 := by decide

/-- C10 (confirmed): two jobs are `__eq__`-equal iff terminal_width,
terminal_theme, title, the mode triple (cmd, snippet, snippet_syntax) and
img_paths are pairwise equal; equal jobs have equal `__hash__` (the string
hash of the same attribute key); and `_hash_no_fn` agrees on any two jobs
whose attributes other than img_paths coincide. -/
theorem richImgEq_spec (a b : RichImg) :
    (richImgEq a b = true ↔
      (a.terminal_width = b.terminal_width ∧ a.terminal_theme = b.terminal_theme ∧
       a.title = b.title ∧
       (a.cmd = b.cmd ∧ a.snippet = b.snippet ∧ a.snippet_syntax = b.snippet_syntax) ∧
       a.img_paths = b.img_paths)) ∧
    (richImgEq a b = true →
      ∀ h : List AttrVal → Int, richImgHash h a = richImgHash h b) ∧
    ((a.terminal_width = b.terminal_width ∧ a.terminal_theme = b.terminal_theme ∧
      a.title = b.title ∧ a.cmd = b.cmd ∧ a.snippet = b.snippet ∧
      a.snippet_syntax = b.snippet_syntax) →
      ∀ h : List AttrVal → Int, hashNoFn h a = hashNoFn h b) := by
  refine ⟨?_, ?_, ?_⟩
  · rw [richImgEq_iff]; tauto
  · intro he h
    obtain ⟨h1, h2, h3, h4, h5, h6, h7⟩ := (richImgEq_iff a b).mp he
    unfold richImgHash attrsKey
    rw [h1, h2, h3, h4, h5, h6, h7]
  · rintro ⟨h1, h2, h3, h4, h5, h6⟩ h
    unfold hashNoFn attrsKeyNoFn
    rw [h1, h2, h3, h4, h5, h6]

/-- C10 (witness): the identity theorem applied to concrete jobs. -/
theorem richImgEq_spec_witness :
    richImgEq sampleJob sampleJob = true ∧
    richImgHash (fun _ => 0) sampleJob = richImgHash (fun _ => 0) sampleJob ∧
    hashNoFn (fun _ => 0) sampleJob = hashNoFn (fun _ => 0) sampleJob2 :=
  ⟨by decide,
   (richImgEq_spec sampleJob sampleJob).2.1 (by decide) (fun _ => 0),
   (richImgEq_spec sampleJob sampleJob2).2.2 ⟨rfl, rfl, rfl, rfl, rfl, rfl⟩ (fun _ => 0)⟩

end RichCodex
